import Mathlib

/-!
Verification development for the Teacup Arm step-timer scheduler and homing
routines (src/Teacup_Arm/timer-avr.c and src/Teacup_Arm/home.c), as a shallow
embedding in Lean 4. Machine integers are modelled as Nat with explicit
reductions modulo 2^16 or 2^32 where the C code wraps.
-/

set_option maxRecDepth 4096

namespace TeacupArm

/-! ### Timer state (timer-avr.c)

The hardware registers touched by the step-timer code, plus the software
register next_step_time and the global interrupt flag. TCNT1 and OCR1A are
16-bit, next_step_time is uint32_t.
-/

structure TState where
  tcnt1 : Nat           -- TCNT1, the free-running 16-bit counter
  ocr1a : Nat           -- OCR1A, output compare register A (16-bit)
  next_step_time : Nat  -- uint32_t next_step_time
  ocie1a : Bool         -- the OCIE1A bit of TIMSK1
  intEnabled : Bool     -- global interrupt flag, toggled by cli() and sei()

/-- C conversion int32_t to uint32_t: value taken modulo 2^32, nonnegative. -/
def u32ofInt (d : Int) : Nat := (d % (4294967296 : Int)).toNat

structure TimerSetResult where
  state : TState
  ret : Nat             -- the uint8_t return value of timer_set

/-- Embedding of timer_set from timer-avr.c (lines 157 to 218), with
ACCELERATION_TEMPORAL compiled in. The function does cli(), copies
step_start = OCR1A, assigns next_step_time = delay, then (when check_short)
returns 1 if (current_time - step_start) + 200 > delay, with the difference
and the sum both computed in 16-bit unsigned arithmetic as on AVR; otherwise
it programs OCR1A from step_start in one of three branches and sets OCIE1A.
The record updates fold the earlier assignments into each exit path. -/
def timer_set (s : TState) (delay : Int) (check_short : Bool) : TimerSetResult :=
  if check_short = true ∧
      delay < ((((s.tcnt1 % 65536 + 65536 - s.ocr1a % 65536) % 65536 + 200) % 65536 : Nat) : Int) then
    -- return 1: only cli() and next_step_time = delay have happened
    { state := { s with intEnabled := false, next_step_time := u32ofInt delay }, ret := 1 }
  else if u32ofInt delay < 65536 then
    -- OCR1A = (next_step_time + step_start) & 0xFFFF
    let t : TState :=
      { s with
        intEnabled := false
        next_step_time := u32ofInt delay
        ocr1a := (u32ofInt delay + s.ocr1a) % 65536
        ocie1a := true }
    { state := t, ret := 0 }
  else if u32ofInt delay < 75536 then
    -- OCR1A = (step_start - 10000) & 0xFFFF; next_step_time += 10000
    let t : TState :=
      { s with
        intEnabled := false
        next_step_time := u32ofInt delay + 10000
        ocr1a := (s.ocr1a + 55536) % 65536
        ocie1a := true }
    { state := t, ret := 0 }
  else
    -- OCR1A = step_start
    let t : TState :=
      { s with
        intEnabled := false
        next_step_time := u32ofInt delay
        ocie1a := true }
    { state := t, ret := 0 }

structure IsrResult where
  state : TState
  stepped : Bool        -- whether queue_step() was invoked on this fire

/-- Embedding of ISR(TIMER1_COMPA_vect) from timer-avr.c (lines 71 to 103).
If next_step_time < 65536 this is a real step: the handler clears OCIE1A and
then calls queue_step(); the returned state is the state at that call.
Otherwise next_step_time -= 65536, then the same three-way comparison as in
timer_set adjusts OCR1A. The branch conditions below test
next_step_time - 65536, which equals the decremented value. -/
def isr_compa (s : TState) : IsrResult :=
  if s.next_step_time < 65536 then
    { state := { s with ocie1a := false }, stepped := true }
  else if s.next_step_time - 65536 < 65536 then
    -- OCR1A = (OCR1A + next_step_time) & 0xFFFF
    let t : TState :=
      { s with
        next_step_time := s.next_step_time - 65536
        ocr1a := (s.ocr1a + (s.next_step_time - 65536)) % 65536 }
    { state := t, stepped := false }
  else if s.next_step_time - 65536 < 75536 then
    -- OCR1A = (OCR1A - 10000) & 0xFFFF; next_step_time += 10000
    let t : TState :=
      { s with
        next_step_time := s.next_step_time - 65536 + 10000
        ocr1a := (s.ocr1a + 55536) % 65536 }
    { state := t, stepped := false }
  else
    -- leave OCR1A as it was
    { state := { s with next_step_time := s.next_step_time - 65536 }, stepped := false }

/-- Number of counter ticks from a compare event at counter value prev until
the free-running 16-bit counter next reaches value next: the unique value in
the range 1 to 65536 congruent to next - prev modulo 65536. -/
def fireDist (prev next : Nat) : Nat := (next + 65536 - prev % 65536 - 1) % 65536 + 1

/-- Fuel-bounded unrolling of the compare-fire sequence: from the fire that
finds state s, sum the counter ticks between consecutive fires until the fire
that performs the real step (0 when s itself steps); each non-stepping fire
reprograms OCR1A and the next fire happens fireDist later. -/
def ticksUntilStepAux : Nat → TState → Nat
  | 0, _ => 0
  | fuel + 1, s =>
    if (isr_compa s).stepped = true then 0
    else fireDist s.ocr1a (isr_compa s).state.ocr1a +
      ticksUntilStepAux fuel (isr_compa s).state

/-- Total counter ticks from the compare fire that finds state s until the
fire that performs the real step. Every non-stepping fire strictly decreases
next_step_time, so next_step_time + 1 rounds of unrolling always reach the
real step and the fuel bound is no restriction. -/
def ticksUntilStepFrom (s : TState) : Nat :=
  ticksUntilStepAux (s.next_step_time + 1) s

/-- Total counter ticks from the anchor (OCR1A before the call, the previous
step-compare event) until the real step, for a timer_set call with
check_short = 0 and the given delay. -/
def scheduledTicks (s : TState) (delay : Nat) : Nat :=
  fireDist s.ocr1a (timer_set s (delay : Int) false).state.ocr1a +
    ticksUntilStepFrom (timer_set s (delay : Int) false).state

/-! ### Homing model (home.c)

The per-axis homing routines are compile-time expanded; each is modelled as a
function of its configuration constants producing the sequence of externally
visible calls (enqueue_home, queue_wait, the position write, and
dda_new_startpoint) together with the updated startpoint vector.
-/

inductive Axis
  | X | Y | Z | U | E
deriving DecidableEq

/-- The TARGET structure as used by the homing code: the per-axis position
components in micrometers and the feedrate F in mm/min. -/
structure TARGET where
  axis : Axis → Int
  F : Nat

inductive HomeEvent
  | enqueueHome (t : TARGET) (endstop_check : Nat) (endstop_stop_cond : Bool)
  | queueWait
  | setStartpoint (a : Axis) (v : Int)  -- startpoint.axis[a] = next_target.target.axis[a] = v
  | ddaNewStartpoint

/-- C cast of a rational value to a signed integer: truncation toward zero. -/
def truncToInt (q : ℚ) : Int := if 0 ≤ q then ⌊q⌋ else ⌈q⌉

/-- Home position in micrometers for a MIN-homed axis: (int32_t)(MIN * 1000.0)
when the MIN coordinate is configured, else 0. -/
def min_position_um (m : Option ℚ) : Int :=
  match m with
  | some q => truncToInt (q * 1000)
  | none => 0

def isEnqueueHome : HomeEvent → Bool
  | .enqueueHome _ _ _ => true
  | _ => false

/-- The enqueue_home calls of an event trace, in order, as
(target, endstop_check mask, endstop_stop_cond) triples. -/
def enqueues (evs : List HomeEvent) : List (TARGET × Nat × Bool) :=
  evs.foldr (fun e acc =>
    match e with
    | .enqueueHome t m c => (t, m, c) :: acc
    | _ => acc) []

/-- The endstop_check masks of the enqueue_home calls of an event trace. -/
def masksOf (evs : List HomeEvent) : List Nat :=
  (enqueues evs).map (fun c => c.2.1)

/-- Generic body shared by all eight homing routines in home.c: a first
enqueue_home toward the endstop (target component approach, always plus or
minus 1000000 um) at the
fast feedrate when search_fast > search_feedrate else the slow one, with
endstop_stop_cond = 1; when search_fast > search_feedrate a second
enqueue_home in the opposite direction at the slow feedrate with
endstop_stop_cond = 0; then queue_wait(), the home position write and
dda_new_startpoint(). -/
def home_axis (a : Axis) (approach backoffTarget : Int) (mask : Nat)
    (search_fast search_feedrate : Nat) (home_um : Int)
    (startpoint : Axis → Int) : List HomeEvent × (Axis → Int) :=
  let t1 : TARGET :=
    { axis := Function.update startpoint a approach
      F := if search_fast > search_feedrate then search_fast else search_feedrate }
  let backoff : List HomeEvent :=
    if search_fast > search_feedrate then
      [HomeEvent.enqueueHome
        { axis := Function.update startpoint a backoffTarget, F := search_feedrate }
        mask false]
    else []
  (HomeEvent.enqueueHome t1 mask true ::
     backoff ++ [HomeEvent.queueWait, HomeEvent.setStartpoint a home_um,
                 HomeEvent.ddaNewStartpoint],
   Function.update startpoint a home_um)

/-- home_x_negative from home.c (lines 98 to 125), with X_MIN_PIN defined:
enqueue_home with mask 0x01 toward X = -1000000, optional slow back-off, then
queue_wait, startpoint.axis[X] = (int32_t)(X_MIN * 1000.0) (or 0 without
X_MIN), dda_new_startpoint. -/
def home_x_negative (search_fast search_feedrate : Nat) (x_min : Option ℚ)
    (startpoint : Axis → Int) : List HomeEvent × (Axis → Int) :=
  home_axis Axis.X (-1000000) 1000000 0x01 search_fast search_feedrate (min_position_um x_min) startpoint

/-- home_z_negative from home.c (lines 215 to 241), with Z_MIN_PIN defined:
both enqueue_home calls pass mask 0x10. -/
def home_z_negative (search_fast search_feedrate : Nat) (z_min : Option ℚ)
    (startpoint : Axis → Int) : List HomeEvent × (Axis → Int) :=
  home_axis Axis.Z (-1000000) 1000000 0x10 search_fast search_feedrate (min_position_um z_min) startpoint

/-- home_z_positive from home.c (lines 244 to 270), with Z_MAX_PIN and Z_MAX
defined: both enqueue_home calls pass mask 0x20. -/
def home_z_positive (search_fast search_feedrate : Nat) (z_max : ℚ)
    (startpoint : Axis → Int) : List HomeEvent × (Axis → Int) :=
  home_axis Axis.Z 1000000 (-1000000) 0x20 search_fast search_feedrate (truncToInt (z_max * 1000)) startpoint

/-- home_u_negative from home.c (lines 273 to 299), with U_MIN_PIN defined:
both enqueue_home calls pass mask 0x10, exactly as home_z_negative does. -/
def home_u_negative (search_fast search_feedrate : Nat) (u_min : Option ℚ)
    (startpoint : Axis → Int) : List HomeEvent × (Axis → Int) :=
  home_axis Axis.U (-1000000) 1000000 0x10 search_fast search_feedrate (min_position_um u_min) startpoint

/-- home_u_positive from home.c (lines 302 to 328), with U_MAX_PIN and U_MAX
defined: both enqueue_home calls pass mask 0x20, exactly as home_z_positive
does. -/
def home_u_positive (search_fast search_feedrate : Nat) (u_max : ℚ)
    (startpoint : Axis → Int) : List HomeEvent × (Axis → Int) :=
  home_axis Axis.U 1000000 (-1000000) 0x20 search_fast search_feedrate (truncToInt (u_max * 1000)) startpoint

/-- Modelled from the spec: the endstop mask bit layout used by homing calls,
"bit 0 = X-, 1 = X+, 2 = Y-, 3 = Y+, 4 = Z-, 5 = Z+, etc.", so that the U
axis continues the pattern with bits 6 (U-) and 7 (U+). The layout itself is
stated only in the spec; the repository source fixes only the concrete
arguments passed to enqueue_home. -/
def specEndstopBit (a : Axis) (positive : Bool) : Nat :=
  2 ^ (2 * (match a with | .X => 0 | .Y => 1 | .Z => 2 | .U => 3 | .E => 4) +
    (if positive then 1 else 0))

/-- The SEARCH_FAST_ macro of home.c:
(uint32_t)((double)60. * sqrt((double)2 * ACCELERATION * ENDSTOP_CLEARANCE / 1000.)),
modelled over the real numbers (the double computation here is exact to well
within the unit interval separating adjacent integer results). The uint32_t
cast truncates the nonnegative value, i.e. takes the floor. -/
noncomputable def search_fast_feedrate (acceleration endstop_clearance : ℚ) : ℕ :=
  ⌊(60 : ℝ) * Real.sqrt (2 * (acceleration : ℝ) * (endstop_clearance : ℝ) / 1000)⌋₊


/-! ### Characterization lemmas for the timer embedding

The wrap branches of the ISR are characterized with the decremented
next_step_time value abstracted as a variable m; keeping the subtraction out
of the record fields keeps all later projection reasoning lightweight.
-/

theorem u32ofInt_coe (d : Nat) (h : d < 4294967296) : u32ofInt (d : Int) = d := by
  unfold u32ofInt; omega

theorem isr_compa_step (s : TState) (h : s.next_step_time < 65536) :
    isr_compa s = ⟨{ s with ocie1a := false }, true⟩ := by
  unfold isr_compa; rw [if_pos h]

theorem isr_compa_wrap_small (s : TState) (m : Nat) (hm : s.next_step_time - 65536 = m)
    (h1 : 65536 ≤ s.next_step_time) (h2 : s.next_step_time < 131072) :
    isr_compa s =
      ⟨{ s with
          next_step_time := m
          ocr1a := (s.ocr1a + m) % 65536 }, false⟩ := by
  subst hm
  unfold isr_compa; split_ifs <;> first | omega | rfl

theorem isr_compa_wrap_guard (s : TState) (m : Nat) (hm : s.next_step_time - 65536 = m)
    (h1 : 131072 ≤ s.next_step_time) (h2 : s.next_step_time < 141072) :
    isr_compa s =
      ⟨{ s with
          next_step_time := m + 10000
          ocr1a := (s.ocr1a + 55536) % 65536 }, false⟩ := by
  subst hm
  unfold isr_compa; split_ifs <;> first | omega | rfl

theorem isr_compa_wrap_big (s : TState) (m : Nat) (hm : s.next_step_time - 65536 = m)
    (h : 141072 ≤ s.next_step_time) :
    isr_compa s = ⟨{ s with next_step_time := m }, false⟩ := by
  subst hm
  unfold isr_compa; split_ifs <;> first | omega | rfl

theorem timer_set_small (s : TState) (d : Nat) (h : d < 65536) :
    timer_set s (d : Int) false =
      ⟨{ s with
          intEnabled := false
          next_step_time := d
          ocr1a := (d + s.ocr1a) % 65536
          ocie1a := true }, 0⟩ := by
  have hu : u32ofInt (d : Int) = d := u32ofInt_coe d (by omega)
  unfold timer_set
  rw [if_neg (by simp)]
  simp only [hu]
  split_ifs with h2 h3 <;> first | omega | rfl

theorem timer_set_guard (s : TState) (d : Nat) (h1 : 65536 ≤ d) (h2 : d < 75536) :
    timer_set s (d : Int) false =
      ⟨{ s with
          intEnabled := false
          next_step_time := d + 10000
          ocr1a := (s.ocr1a + 55536) % 65536
          ocie1a := true }, 0⟩ := by
  have hu : u32ofInt (d : Int) = d := u32ofInt_coe d (by omega)
  unfold timer_set
  rw [if_neg (by simp)]
  simp only [hu]
  split_ifs with hb hc <;> first | omega | rfl

theorem timer_set_big (s : TState) (d : Nat) (h1 : 75536 ≤ d) (h2 : d < 4294967296) :
    timer_set s (d : Int) false =
      ⟨{ s with
          intEnabled := false
          next_step_time := d
          ocie1a := true }, 0⟩ := by
  have hu : u32ofInt (d : Int) = d := u32ofInt_coe d h2
  unfold timer_set
  rw [if_neg (by simp)]
  simp only [hu]
  split_ifs with hb hc <;> first | omega | rfl

theorem fireDist_add (a d : Nat) (ha : a < 65536) (h1 : 1 ≤ d) (h2 : d ≤ 65536) :
    fireDist a ((a + d) % 65536) = d := by
  unfold fireDist; omega

theorem fireDist_self (a : Nat) (ha : a < 65536) : fireDist a a = 65536 := by
  unfold fireDist; omega

theorem ticksUntilStepAux_of_step (f : Nat) (s : TState) (h : s.next_step_time < 65536) :
    ticksUntilStepAux f s = 0 := by
  cases f with
  | zero => rfl
  | succ k => unfold ticksUntilStepAux; simp [isr_compa_step s h]

/-- Core lemma behind delay preservation: in the wrap regime reachable from
timer_set (next_step_time at least 75536), the counter ticks from the current
fire until the stepping fire are exactly next_step_time - 65536, for any
sufficient fuel. -/
theorem ticksUntilStepAux_wrap :
    ∀ fuel, ∀ s : TState, s.ocr1a < 65536 → s.next_step_time ≤ fuel →
      75536 ≤ s.next_step_time → ticksUntilStepAux fuel s = s.next_step_time - 65536 := by
  intro fuel
  induction fuel with
  | zero => intro s ha hle hge; omega
  | succ k ihk =>
    intro s ha hle hge
    obtain ⟨m, hm⟩ : ∃ m, s.next_step_time - 65536 = m := ⟨_, rfl⟩
    by_cases hA : s.next_step_time < 131072
    · have hb := isr_compa_wrap_small s m hm (by omega) hA
      have hstep : (isr_compa s).stepped = false := by rw [hb]
      have ho : (isr_compa s).state.ocr1a = (s.ocr1a + m) % 65536 := by rw [hb]
      have hns : (isr_compa s).state.next_step_time = m := by rw [hb]
      unfold ticksUntilStepAux
      rw [if_neg (by simp [hstep])]
      rw [ho, fireDist_add s.ocr1a m ha (by omega) (by omega),
          ticksUntilStepAux_of_step k _ (by rw [hns]; omega)]
      omega
    · by_cases hB : s.next_step_time < 141072
      · have hb := isr_compa_wrap_guard s m hm (by omega) hB
        have hstep : (isr_compa s).stepped = false := by rw [hb]
        have ho : (isr_compa s).state.ocr1a = (s.ocr1a + 55536) % 65536 := by rw [hb]
        have hns : (isr_compa s).state.next_step_time = m + 10000 := by rw [hb]
        unfold ticksUntilStepAux
        rw [if_neg (by simp [hstep])]
        rw [ho, fireDist_add s.ocr1a 55536 ha (by omega) (by omega),
            ihk (isr_compa s).state (by rw [ho]; exact Nat.mod_lt _ (by omega))
              (by rw [hns]; omega) (by rw [hns]; omega)]
        rw [hns]
        omega
      · have hb := isr_compa_wrap_big s m hm (by omega)
        have hstep : (isr_compa s).stepped = false := by rw [hb]
        have ho : (isr_compa s).state.ocr1a = s.ocr1a := by rw [hb]
        have hns : (isr_compa s).state.next_step_time = m := by rw [hb]
        unfold ticksUntilStepAux
        rw [if_neg (by simp [hstep])]
        rw [ho, fireDist_self s.ocr1a ha,
            ihk (isr_compa s).state (by rw [ho]; exact ha)
              (by rw [hns]; omega) (by rw [hns]; omega)]
        rw [hns]
        omega

theorem ticksUntilStep_of_step (s : TState) (h : s.next_step_time < 65536) :
    ticksUntilStepFrom s = 0 :=
  ticksUntilStepAux_of_step (s.next_step_time + 1) s h

theorem ticksUntilStep_wrap (s : TState) (ha : s.ocr1a < 65536)
    (hge : 75536 ≤ s.next_step_time) :
    ticksUntilStepFrom s = s.next_step_time - 65536 :=
  ticksUntilStepAux_wrap (s.next_step_time + 1) s ha (by omega) hge

/-- Helper for delay preservation: for any requested delay of at least 1 CPU
tick (below 2^31, the int32_t range), the total number of counter ticks from
the anchor to the real step equals the delay. -/
theorem scheduledTicks_correct (s : TState) (d : Nat) (ha : s.ocr1a < 65536)
    (h1 : 1 ≤ d) (h2 : d < 2147483648) : scheduledTicks s d = d := by
  by_cases hs : d < 65536
  · have ht := timer_set_small s d hs
    have ho : (timer_set s (d : Int) false).state.ocr1a = (d + s.ocr1a) % 65536 := by
      rw [ht]
    have hns : (timer_set s (d : Int) false).state.next_step_time = d := by rw [ht]
    unfold scheduledTicks
    rw [ho, ticksUntilStep_of_step _ (by rw [hns]; omega)]
    have hfd : fireDist s.ocr1a ((s.ocr1a + d) % 65536) = d :=
      fireDist_add s.ocr1a d ha (by omega) (by omega)
    rw [Nat.add_comm d s.ocr1a]
    omega
  · by_cases hg : d < 75536
    · have ht := timer_set_guard s d (by omega) hg
      have ho : (timer_set s (d : Int) false).state.ocr1a = (s.ocr1a + 55536) % 65536 := by
        rw [ht]
      have hns : (timer_set s (d : Int) false).state.next_step_time = d + 10000 := by
        rw [ht]
      unfold scheduledTicks
      rw [ho, fireDist_add s.ocr1a 55536 ha (by omega) (by omega),
          ticksUntilStep_wrap _ (by rw [ho]; exact Nat.mod_lt _ (by omega))
            (by rw [hns]; omega)]
      rw [hns]
      omega
    · have ht := timer_set_big s d (by omega) (by omega)
      have ho : (timer_set s (d : Int) false).state.ocr1a = s.ocr1a := by rw [ht]
      have hns : (timer_set s (d : Int) false).state.next_step_time = d := by rw [ht]
      unfold scheduledTicks
      rw [ho, fireDist_self s.ocr1a ha,
          ticksUntilStep_wrap _ (by rw [ho]; exact ha) (by rw [hns]; omega)]
      rw [hns]
      omega

/-- Helper for the guard band: any fire in the wrap regime schedules its
successor at least 10000 counter ticks away. -/
theorem wrap_fire_headroom (s : TState) (ha : s.ocr1a < 65536)
    (hge : 75536 ≤ s.next_step_time) :
    10000 ≤ fireDist s.ocr1a (isr_compa s).state.ocr1a := by
  obtain ⟨m, hm⟩ : ∃ m, s.next_step_time - 65536 = m := ⟨_, rfl⟩
  by_cases hA : s.next_step_time < 131072
  · have hb := isr_compa_wrap_small s m hm (by omega) hA
    have ho : (isr_compa s).state.ocr1a = (s.ocr1a + m) % 65536 := by rw [hb]
    rw [ho, fireDist_add s.ocr1a m ha (by omega) (by omega)]
    omega
  · by_cases hB : s.next_step_time < 141072
    · have hb := isr_compa_wrap_guard s m hm (by omega) hB
      have ho : (isr_compa s).state.ocr1a = (s.ocr1a + 55536) % 65536 := by rw [hb]
      rw [ho, fireDist_add s.ocr1a 55536 ha (by omega) (by omega)]
      omega
    · have hb := isr_compa_wrap_big s m hm (by omega)
      have ho : (isr_compa s).state.ocr1a = s.ocr1a := by rw [hb]
      rw [ho, fireDist_self s.ocr1a ha]
      omega

/-! ### Claim theorems -/

/-- Claim C1, counterexample: a wrap fire whose decremented next_step_time
lands in the guard band does not merely subtract 65536. At next_step_time =
132306 (reachable: it is the state after the first wrap fire of a delay of
197842 = 3 * 65536 + 1234) the ISR emits no step but leaves next_step_time =
76770, not 132306 - 65536 = 66770. -/
theorem wrap_fire_guard_counterexample :
    (isr_compa ⟨0, 0, 132306, true, true⟩).stepped = false ∧
    (isr_compa ⟨0, 0, 132306, true, true⟩).state.next_step_time = 76770 ∧
    (76770 : Nat) ≠ 132306 - 65536 ∧
    (isr_compa (timer_set ⟨0, 0, 0, false, true⟩ 197842 false).state).state.next_step_time = 132306 := by
  refine ⟨by decide, by decide, by decide, by decide⟩

/-- Claim C1, amended: with timer_set called (check_short = 0) at a delay of
at least 65536, every compare interrupt that finds next_step_time at least
65536 emits no step and subtracts 65536 from next_step_time, except that when
the decremented value lands in the guard band 65536 to 75535 (entry value
131072 to 141071) it also adds 10000 back, a net reduction of 55536; the
first compare interrupt that finds next_step_time below 65536 performs the
real step (calls queue_step). For the requested delay 3 * 65536 + 1234 there
are exactly three no-step wrap fires and then one real step fire. -/
theorem large_delay_wrap_amended :
    (∀ s : TState, 65536 ≤ s.next_step_time →
      (isr_compa s).stepped = false ∧
      (isr_compa s).state.next_step_time =
        (if 131072 ≤ s.next_step_time ∧ s.next_step_time < 141072
         then s.next_step_time - 55536 else s.next_step_time - 65536)) ∧
    (∀ s : TState, s.next_step_time < 65536 → (isr_compa s).stepped = true) ∧
    ((isr_compa (timer_set ⟨0, 0, 0, false, true⟩ 197842 false).state).stepped = false ∧
     (isr_compa (isr_compa (timer_set ⟨0, 0, 0, false, true⟩ 197842 false).state).state).stepped = false ∧
     (isr_compa (isr_compa (isr_compa (timer_set ⟨0, 0, 0, false, true⟩ 197842 false).state).state).state).stepped = false ∧
     (isr_compa (isr_compa (isr_compa (isr_compa (timer_set ⟨0, 0, 0, false, true⟩ 197842 false).state).state).state).state).stepped = true) := by
  refine ⟨?_, ?_, by decide⟩
  · intro s h
    obtain ⟨m, hm⟩ : ∃ m, s.next_step_time - 65536 = m := ⟨_, rfl⟩
    by_cases hA : s.next_step_time < 131072
    · have hb := isr_compa_wrap_small s m hm (by omega) hA
      have hstep : (isr_compa s).stepped = false := by rw [hb]
      have hns : (isr_compa s).state.next_step_time = m := by rw [hb]
      exact ⟨hstep, by rw [hns, if_neg (by omega)]; omega⟩
    · by_cases hB : s.next_step_time < 141072
      · have hb := isr_compa_wrap_guard s m hm (by omega) hB
        have hstep : (isr_compa s).stepped = false := by rw [hb]
        have hns : (isr_compa s).state.next_step_time = m + 10000 := by rw [hb]
        exact ⟨hstep, by rw [hns, if_pos (by omega)]; omega⟩
      · have hb := isr_compa_wrap_big s m hm (by omega)
        have hstep : (isr_compa s).stepped = false := by rw [hb]
        have hns : (isr_compa s).state.next_step_time = m := by rw [hb]
        exact ⟨hstep, by rw [hns, if_neg (by omega)]; omega⟩
  · intro s h
    rw [isr_compa_step s h]

/-- Claim C1, witness: the wrap part of the amended claim at a concrete state
with next_step_time = 70000. -/
theorem large_delay_wrap_amended_witness :
    65536 ≤ (70000 : Nat) ∧
    ((isr_compa ⟨3, 7, 70000, true, true⟩).stepped = false ∧
     (isr_compa ⟨3, 7, 70000, true, true⟩).state.next_step_time =
       (if 131072 ≤ (70000 : Nat) ∧ (70000 : Nat) < 141072
        then 70000 - 55536 else 70000 - 65536)) :=
  ⟨by decide, large_delay_wrap_amended.1 ⟨3, 7, 70000, true, true⟩ (by decide)⟩

/-- Claim C2 (confirmed): the guard band branches of timer_set and the step
ISR step OCR1A backwards by 10000 modulo 65536 and add 10000 to
next_step_time; the total number of counter ticks from the anchor until the
real step equals the requested delay for every delay of at least one tick;
and every wrap-regime fire leaves at least 10000 ticks until the next compare
interrupt. -/
theorem guard_band_preserves_delay :
    (∀ (s : TState) (d : Nat), 65536 ≤ d → d < 75536 →
      (timer_set s (d : Int) false).state.ocr1a = (s.ocr1a + 55536) % 65536 ∧
      (timer_set s (d : Int) false).state.next_step_time = d + 10000) ∧
    (∀ s : TState, 131072 ≤ s.next_step_time → s.next_step_time < 141072 →
      (isr_compa s).stepped = false ∧
      (isr_compa s).state.ocr1a = (s.ocr1a + 55536) % 65536 ∧
      (isr_compa s).state.next_step_time = s.next_step_time - 55536) ∧
    (∀ (s : TState) (d : Nat), s.ocr1a < 65536 → 1 ≤ d → d < 2147483648 →
      scheduledTicks s d = d) ∧
    (∀ s : TState, s.ocr1a < 65536 → 75536 ≤ s.next_step_time →
      10000 ≤ fireDist s.ocr1a (isr_compa s).state.ocr1a) := by
  refine ⟨?_, ?_, fun s d ha h1 h2 => scheduledTicks_correct s d ha h1 h2,
    fun s ha hge => wrap_fire_headroom s ha hge⟩
  · intro s d h1 h2
    have ht := timer_set_guard s d h1 h2
    exact ⟨by rw [ht], by rw [ht]⟩
  · intro s h1 h2
    obtain ⟨m, hm⟩ : ∃ m, s.next_step_time - 65536 = m := ⟨_, rfl⟩
    have hb := isr_compa_wrap_guard s m hm h1 h2
    have hns : (isr_compa s).state.next_step_time = m + 10000 := by rw [hb]
    exact ⟨by rw [hb], by rw [hb], by rw [hns]; omega⟩

/-- Claim C2, witness: total-delay preservation at the concrete delay
3 * 65536 + 1234 = 197842 from a concrete anchor. -/
theorem guard_band_preserves_delay_witness :
    (0 : Nat) < 65536 ∧ 1 ≤ (197842 : Nat) ∧ (197842 : Nat) < 2147483648 ∧
    scheduledTicks ⟨0, 0, 0, false, false⟩ 197842 = 197842 :=
  ⟨by decide, by decide, by decide,
   guard_band_preserves_delay.2.2.1 ⟨0, 0, 0, false, false⟩ 197842
     (by decide) (by decide) (by decide)⟩

/-- Claim C3 (confirmed): for every delay below 65536, timer_set with
check_short = 0 programs OCR1A to (previous OCR1A + delay) mod 65536,
anchored at the previous compare value and independent of the current counter
value TCNT1, hence independent of how long the ISR body took. -/
theorem timer_set_anchor (s : TState) (delay : Nat) (h : delay < 65536) :
    (timer_set s (delay : Int) false).state.ocr1a = (s.ocr1a + delay) % 65536 ∧
    ∀ t : Nat, (timer_set { s with tcnt1 := t } (delay : Int) false).state.ocr1a =
      (s.ocr1a + delay) % 65536 := by
  have e1 : (timer_set s (delay : Int) false).state.ocr1a = (delay + s.ocr1a) % 65536 := by
    rw [timer_set_small s delay h]
  have e2 : ∀ t : Nat, (timer_set { s with tcnt1 := t } (delay : Int) false).state.ocr1a =
      (delay + s.ocr1a) % 65536 := by
    intro t
    rw [timer_set_small { s with tcnt1 := t } delay h]
  exact ⟨by rw [e1, Nat.add_comm], fun t => by rw [e2 t, Nat.add_comm]⟩

/-- Claim C3, witness: the anchored compare value at a concrete state and
delay, for two different counter readings. -/
theorem timer_set_anchor_witness :
    (500 : Nat) < 65536 ∧
    (timer_set ⟨0, 123, 0, false, false⟩ (500 : Int) false).state.ocr1a =
      (123 + 500) % 65536 ∧
    (timer_set ⟨60000, 123, 0, false, false⟩ (500 : Int) false).state.ocr1a =
      (123 + 500) % 65536 :=
  ⟨by decide, (timer_set_anchor ⟨0, 123, 0, false, false⟩ 500 (by decide)).1,
   (timer_set_anchor ⟨0, 123, 0, false, false⟩ 500 (by decide)).2 60000⟩

/-- Claim C4, counterexample: the short-request comparison is computed in
16-bit unsigned arithmetic, so the sum (TCNT1 - OCR1A) + 200 wraps modulo
65536. With TCNT1 = 65400, OCR1A = 0 and delay = 65500, the mathematical sum
65400 + 200 = 65600 exceeds the delay, so the claim demands TooShort, but the
code computes 65600 mod 65536 = 64, finds 64 below the delay and returns 0,
scheduling normally. -/
theorem short_check_wrap_counterexample :
    (timer_set ⟨65400, 0, 0, false, true⟩ 65500 true).ret = 0 ∧
    (((65400 + 65536 - 0) % 65536 + 200 : Nat) : Int) > 65500 := by
  refine ⟨by decide, by decide⟩

/-- Claim C4, amended: timer_set with check_short = 1 returns TooShort (1) if
and only if ((TCNT1 - OCR1A) mod 65536 + 200) mod 65536 exceeds the requested
delay, the whole comparison value reduced modulo 2^16 as on AVR; on that path
OCR1A (the anchor) is unchanged and the OCIE1A bit is not newly enabled. -/
theorem short_check_amended (s : TState) (delay : Int)
    (ht : s.tcnt1 < 65536) (ho : s.ocr1a < 65536) :
    ((timer_set s delay true).ret = 1 ↔
      delay < ((((s.tcnt1 + 65536 - s.ocr1a) % 65536 + 200) % 65536 : Nat) : Int)) ∧
    ((timer_set s delay true).ret = 1 →
      (timer_set s delay true).state.ocr1a = s.ocr1a ∧
      (timer_set s delay true).state.ocie1a = s.ocie1a) := by
  have e1 : s.tcnt1 % 65536 = s.tcnt1 := Nat.mod_eq_of_lt ht
  have e2 : s.ocr1a % 65536 = s.ocr1a := Nat.mod_eq_of_lt ho
  unfold timer_set
  simp only [e1, e2]
  split_ifs with h1 h2 h3 <;> simp_all

/-- Claim C4, witness: the TooShort path of the amended claim at a concrete
state and delay. -/
theorem short_check_amended_witness :
    (100 : Nat) < 65536 ∧ (0 : Nat) < 65536 ∧
    ((timer_set ⟨100, 0, 0, false, true⟩ (50 : Int) true).ret = 1 ↔
      (50 : Int) < ((((100 + 65536 - 0) % 65536 + 200) % 65536 : Nat) : Int)) :=
  ⟨by decide, by decide,
   (short_check_amended ⟨100, 0, 0, false, true⟩ 50 (by decide) (by decide)).1⟩

/-- Claim C9 (confirmed): when the short-request check fires, timer_set
returns 1 with global interrupts still disabled (the cli() at entry is never
paired with sei() on this path), with next_step_time already overwritten to
the requested delay (as a uint32_t), with OCR1A untouched and with the OCIE1A
bit unchanged, so no step-compare interrupt is newly enabled. -/
theorem timer_set_too_short_effects (s : TState) (delay : Int)
    (h : delay < ((((s.tcnt1 % 65536 + 65536 - s.ocr1a % 65536) % 65536 + 200) % 65536 : Nat) : Int)) :
    (timer_set s delay true).ret = 1 ∧
    (timer_set s delay true).state.intEnabled = false ∧
    (timer_set s delay true).state.next_step_time = u32ofInt delay ∧
    (timer_set s delay true).state.ocie1a = s.ocie1a ∧
    (timer_set s delay true).state.ocr1a = s.ocr1a := by
  unfold timer_set
  rw [if_pos ⟨rfl, h⟩]
  exact ⟨rfl, rfl, rfl, rfl, rfl⟩

/-- Claim C9, witness: the TooShort effects at a concrete state with a
negative requested delay, as the temporal acceleration mode can produce. -/
theorem timer_set_too_short_effects_witness :
    ((-5 : Int) < ((((100 % 65536 + 65536 - 7 % 65536) % 65536 + 200) % 65536 : Nat) : Int)) ∧
    ((timer_set ⟨100, 7, 3, true, true⟩ (-5) true).ret = 1 ∧
     (timer_set ⟨100, 7, 3, true, true⟩ (-5) true).state.intEnabled = false ∧
     (timer_set ⟨100, 7, 3, true, true⟩ (-5) true).state.next_step_time = u32ofInt (-5) ∧
     (timer_set ⟨100, 7, 3, true, true⟩ (-5) true).state.ocie1a = true ∧
     (timer_set ⟨100, 7, 3, true, true⟩ (-5) true).state.ocr1a = 7) :=
  ⟨by decide, timer_set_too_short_effects ⟨100, 7, 3, true, true⟩ (-5) (by decide)⟩

/-- Claim C10 (confirmed): the step-compare ISR performs a real step exactly
when next_step_time is below 65536; on that path the state passed to
queue_step has the OCIE1A bit already cleared, and on the wrap path OCIE1A is
left unchanged, so after a real step the compare interrupt can fire again
only if queue_step (through timer_set) re-arms it. -/
theorem isr_step_disables_compare (s : TState) :
    ((isr_compa s).stepped = true ↔ s.next_step_time < 65536) ∧
    ((isr_compa s).stepped = true → (isr_compa s).state.ocie1a = false) ∧
    ((isr_compa s).stepped = false → (isr_compa s).state.ocie1a = s.ocie1a) := by
  by_cases h : s.next_step_time < 65536
  · have hb := isr_compa_step s h
    have hstep : (isr_compa s).stepped = true := by rw [hb]
    have hoc : (isr_compa s).state.ocie1a = false := by rw [hb]
    refine ⟨⟨fun _ => h, fun _ => hstep⟩, fun _ => hoc, fun hf => ?_⟩
    rw [hstep] at hf
    exact absurd hf (by decide)
  · obtain ⟨m, hm⟩ : ∃ m, s.next_step_time - 65536 = m := ⟨_, rfl⟩
    have key : (isr_compa s).stepped = false ∧ (isr_compa s).state.ocie1a = s.ocie1a := by
      by_cases hA : s.next_step_time < 131072
      · have hb := isr_compa_wrap_small s m hm (by omega) hA
        exact ⟨by rw [hb], by rw [hb]⟩
      · by_cases hB : s.next_step_time < 141072
        · have hb := isr_compa_wrap_guard s m hm (by omega) hB
          exact ⟨by rw [hb], by rw [hb]⟩
        · have hb := isr_compa_wrap_big s m hm (by omega)
          exact ⟨by rw [hb], by rw [hb]⟩
    have hcontra : (isr_compa s).stepped = true → False := by
      intro hst
      rw [key.1] at hst
      exact absurd hst (by decide)
    exact ⟨⟨fun hst => (hcontra hst).elim, fun hlt => absurd hlt h⟩,
           fun hst => (hcontra hst).elim, fun _ => key.2⟩

/-- Claim C10, witness: stepping with next_step_time = 4321 disables the
compare interrupt in the state seen by queue_step. -/
theorem isr_step_disables_compare_witness :
    (isr_compa ⟨5, 7, 4321, true, true⟩).stepped = true ∧
    (isr_compa ⟨5, 7, 4321, true, true⟩).state.ocie1a = false :=
  ⟨by decide, (isr_step_disables_compare ⟨5, 7, 4321, true, true⟩).2.1 (by decide)⟩

/-- Claim C5 (code bug in home.c): the U homing routines pass endstop masks
0x10 and 0x20 to enqueue_home, the very bits home_z_negative and
home_z_positive pass, while the bit layout of the spec (bit 0 = X-, 1 = X+,
2 = Y-, 3 = Y+, 4 = Z-, 5 = Z+, continuing) assigns U- = 0x40 and U+ = 0x80.
So homing U samples the Z endstops. -/
theorem u_homing_masks_collide_with_z :
    masksOf (home_u_negative 200 100 none (fun _ => 0)).1 = [0x10, 0x10] ∧
    masksOf (home_u_positive 200 100 50 (fun _ => 0)).1 = [0x20, 0x20] ∧
    masksOf (home_z_negative 200 100 none (fun _ => 0)).1 = [0x10, 0x10] ∧
    masksOf (home_z_positive 200 100 50 (fun _ => 0)).1 = [0x20, 0x20] ∧
    specEndstopBit Axis.U false = 0x40 ∧ specEndstopBit Axis.U true = 0x80 ∧
    specEndstopBit Axis.Z false = 0x10 ∧ specEndstopBit Axis.Z true = 0x20 ∧
    (0x10 : Nat) ≠ 0x40 ∧ (0x20 : Nat) ≠ 0x80 := by
  refine ⟨?_, ?_, ?_, ?_, by decide, by decide, by decide, by decide, by decide, by decide⟩ <;>
    simp [home_u_negative, home_u_positive, home_z_negative, home_z_positive,
      home_axis, masksOf, enqueues]

/-- Claim C6 (confirmed): when the computed fast search feedrate exceeds the
configured slow one, home_x_negative enqueues exactly two homing moves, a
fast approach toward X = -1000000 um with stop-on-trigger set followed by a
slow back-off toward X = +1000000 um with stop-on-trigger cleared; otherwise
it enqueues exactly one slow approach with stop-on-trigger set. -/
theorem two_pass_homing (search_fast search_feedrate : Nat) (x_min : Option ℚ)
    (sp : Axis → Int) :
    (search_fast > search_feedrate →
      enqueues (home_x_negative search_fast search_feedrate x_min sp).1 =
        [({ axis := Function.update sp Axis.X (-1000000), F := search_fast }, 0x01, true),
         ({ axis := Function.update sp Axis.X 1000000, F := search_feedrate }, 0x01, false)]) ∧
    (¬ search_fast > search_feedrate →
      enqueues (home_x_negative search_fast search_feedrate x_min sp).1 =
        [({ axis := Function.update sp Axis.X (-1000000), F := search_feedrate }, 0x01, true)]) := by
  constructor <;> intro h <;>
    simp [home_x_negative, home_axis, enqueues, h]

/-- Claim C6, witness: the two-move fast case at concrete feedrates 200 over
100 mm/min. -/
theorem two_pass_homing_witness :
    (200 : Nat) > 100 ∧
    enqueues (home_x_negative 200 100 none (fun _ => 0)).1 =
      [({ axis := Function.update (fun _ => (0 : Int)) Axis.X (-1000000), F := 200 }, 0x01, true),
       ({ axis := Function.update (fun _ => (0 : Int)) Axis.X 1000000, F := 100 }, 0x01, false)] :=
  ⟨by decide, (two_pass_homing 200 100 none (fun _ => 0)).1 (by decide)⟩

/-- Claim C8 (confirmed): home_x_negative (X_MIN_PIN defined) ends with the
event sequence queue_wait, then the write of startpoint.axis[X] to the
configured X_MIN in micrometers (0 when X_MIN is not configured), then
dda_new_startpoint; everything before queue_wait is an enqueue_home call, so
no position is written before the queue drains; and every startpoint
component other than X is unchanged. -/
theorem home_x_negative_origin_update (search_fast search_feedrate : Nat)
    (x_min : Option ℚ) (sp : Axis → Int) :
    (home_x_negative search_fast search_feedrate x_min sp).2 Axis.X =
      min_position_um x_min ∧
    (∀ a : Axis, a ≠ Axis.X →
      (home_x_negative search_fast search_feedrate x_min sp).2 a = sp a) ∧
    (∃ pre, (home_x_negative search_fast search_feedrate x_min sp).1 =
        pre ++ [HomeEvent.queueWait,
                HomeEvent.setStartpoint Axis.X (min_position_um x_min),
                HomeEvent.ddaNewStartpoint] ∧
      ∀ e ∈ pre, isEnqueueHome e = true) := by
  refine ⟨?_, ?_, ?_⟩
  · simp [home_x_negative, home_axis]
  · intro a ha
    simp [home_x_negative, home_axis, Function.update_noteq ha]
  · by_cases h : search_fast > search_feedrate
    · refine ⟨[HomeEvent.enqueueHome
          { axis := Function.update sp Axis.X (-1000000)
            F := search_fast } 0x01 true,
        HomeEvent.enqueueHome
          { axis := Function.update sp Axis.X 1000000
            F := search_feedrate } 0x01 false], ?_, ?_⟩
      · simp [home_x_negative, home_axis, h]
      · intro e he
        fin_cases he <;> rfl
    · refine ⟨[HomeEvent.enqueueHome
          { axis := Function.update sp Axis.X (-1000000)
            F := search_feedrate } 0x01 true], ?_, ?_⟩
      · simp [home_x_negative, home_axis, h]
      · intro e he
        fin_cases he <;> rfl

/-- Claim C8, witness: homing from a nonzero startpoint with X_MIN = 5 mm
leaves the Y component untouched. -/
theorem home_x_negative_origin_update_witness :
    Axis.Y ≠ Axis.X ∧
    (home_x_negative 200 100 (some 5) (fun _ => 7)).2 Axis.Y = (fun _ => (7 : Int)) Axis.Y :=
  ⟨by decide,
   (home_x_negative_origin_update 200 100 (some 5) (fun _ => 7)).2.1 Axis.Y (by decide)⟩

/-- Helper: the SEARCH_FAST formula at ACCELERATION = 1000 and clearance 5000
(5 mm expressed in the micrometer config unit) evaluates to exactly 6000. -/
theorem search_fast_at_5mm_um : search_fast_feedrate 1000 5000 = 6000 := by
  unfold search_fast_feedrate
  have h1 : (2 * (((1000 : ℚ)) : ℝ) * (((5000 : ℚ)) : ℝ) / 1000) = 10000 := by norm_num
  rw [h1]
  have h2 : Real.sqrt 10000 = 100 := by
    rw [show (10000 : ℝ) = 100 ^ 2 by norm_num]
    exact Real.sqrt_sq (by norm_num)
  rw [h2]
  norm_num

/-- Helper: the SEARCH_FAST formula with the value 5 substituted directly for
the clearance gives 60 * sqrt 10, which truncates to 189. -/
theorem search_fast_at_5 : search_fast_feedrate 1000 5 = 189 := by
  unfold search_fast_feedrate
  have h1 : (2 * (((1000 : ℚ)) : ℝ) * (((5 : ℚ)) : ℝ) / 1000) = 10 := by norm_num
  rw [h1]
  have hs : Real.sqrt 10 ^ 2 = 10 := Real.sq_sqrt (by norm_num)
  have hpos : (0 : ℝ) ≤ Real.sqrt 10 := Real.sqrt_nonneg 10
  rw [Nat.floor_eq_iff (by positivity)]
  constructor
  · have : (189 : ℝ) ≤ 60 * Real.sqrt 10 := by nlinarith [hs, hpos]
    simpa using this
  · have h190 : 60 * Real.sqrt 10 < 190 := by nlinarith [hs, hpos]
    have : ((189 : ℕ) : ℝ) + 1 = 190 := by norm_num
    rw [this]
    exact h190

/-- Claim C7, counterexample: the numeric example of the claim is wrong. The
formula value with ACCELERATION = 1000 and ENDSTOP_CLEARANCE = 5 mm is 189
mm/min when 5 is substituted directly, and 6000 mm/min when the clearance is
given in the micrometer unit the config uses (5000); neither is anywhere
near the claimed 1897 mm/min. -/
theorem search_fast_value_counterexample :
    search_fast_feedrate 1000 5 = 189 ∧
    search_fast_feedrate 1000 5000 = 6000 ∧
    ¬(1800 ≤ search_fast_feedrate 1000 5 ∧ search_fast_feedrate 1000 5 ≤ 2000) ∧
    ¬(1800 ≤ search_fast_feedrate 1000 5000 ∧ search_fast_feedrate 1000 5000 ≤ 2000) := by
  refine ⟨search_fast_at_5, search_fast_at_5mm_um, ?_, ?_⟩
  · rw [search_fast_at_5]; omega
  · rw [search_fast_at_5mm_um]; omega

/-- Claim C7, amended: for every axis with an endstop the fast search
feedrate is 60 * sqrt(2 * ACCELERATION * ENDSTOP_CLEARANCE / 1000) mm/min
truncated to an unsigned integer, exactly as claimed; but with ACCELERATION =
1000 mm/s^2 and ENDSTOP_CLEARANCE = 5 mm the value is 6000 mm/min (clearance
5000 um in config units), or 189 mm/min reading the 5 literally, not
approximately 1897. -/
theorem search_fast_formula_amended :
    (∀ acceleration endstop_clearance : ℚ,
      search_fast_feedrate acceleration endstop_clearance =
        ⌊(60 : ℝ) * Real.sqrt (2 * (acceleration : ℝ) * (endstop_clearance : ℝ) / 1000)⌋₊) ∧
    search_fast_feedrate 1000 5000 = 6000 ∧
    search_fast_feedrate 1000 5 = 189 :=
  ⟨fun _ _ => rfl, search_fast_at_5mm_um, search_fast_at_5⟩

end TeacupArm
